import Mathlib

/-!
Verification development for the AIOPriceRandomizer mod.

The definitions below are a shallow embedding of the JavaScript source
(`src/mod.js` in both its concise and verbose form, and
`src/aio-price-randomizer-loader.js`).  JavaScript numbers are modelled as
rationals (`ℚ`), 32-bit integer bit operations as `Nat` operations taken
`% 2^32`, JavaScript `Map`s as association lists, and `null`/`undefined`
as `Option.none`.
-/

namespace AIOPriceRandomizer

/-! ### Deterministic generator (mulberry32)

`seededRandom` (mod.js, concise copy) and `createDeterministicRandomGenerator`
(mod.js, verbose copy) are the same mulberry32 algorithm.  All JS bitwise
operators coerce to 32-bit integers; the unsigned bit pattern of every
intermediate is its value `% 2^32`, so the state is a `Nat` kept below `2^32`.
The returned float is `t / 2^32` where `t` is the final 32-bit word. -/

/-- `Math.imul`: 32-bit multiplication (bit pattern of the product). -/
def imul32 (a b : Nat) : Nat := (a * b) % 4294967296

/-- One call of the closure produced by `seededRandom` (mod.js lines 9-18):
returns the new internal state and the 32-bit numerator of the output. -/
def seededRandomStep (s0 : Nat) : Nat × Nat :=
  let s1 := (s0 + 0x6D2B79F5) % 4294967296
  let s2 := imul32 (s1 ^^^ (s1 >>> 15)) (s1 ||| 1)
  let s3 := s2 ^^^ ((s2 + imul32 (s2 ^^^ (s2 >>> 7)) (s2 ||| 61)) % 4294967296)
  (s3, s3 ^^^ (s3 >>> 14))

/-- One call of the closure produced by `createDeterministicRandomGenerator`
(mod.js lines 411-419): identical mulberry32 body, embedded separately. -/
def createDeterministicRandomGeneratorStep (s0 : Nat) : Nat × Nat :=
  let s1 := (s0 + 0x6D2B79F5) % 4294967296
  let s2 := imul32 (s1 ^^^ (s1 >>> 15)) (s1 ||| 1)
  let s3 := s2 ^^^ ((s2 + imul32 (s2 ^^^ (s2 >>> 7)) (s2 ||| 61)) % 4294967296)
  (s3, s3 ^^^ (s3 >>> 14))

/-- Internal state of a `seededRandom` generator after `n` calls, starting
from `seed >>> 0`. -/
def seededRandomStateAt (seed : Nat) : Nat → Nat
  | 0 => seed % 4294967296
  | n + 1 => (seededRandomStep (seededRandomStateAt seed n)).1

/-- The `n`-th float produced by a fresh `seededRandom seed` generator. -/
def seededRandomValueAt (seed n : Nat) : ℚ :=
  ((seededRandomStep (seededRandomStateAt seed n)).2 : ℚ) / 4294967296

/-- Internal state of a `createDeterministicRandomGenerator` instance after
`n` calls, starting from `seedValue >>> 0`. -/
def cdrgStateAt (seed : Nat) : Nat → Nat
  | 0 => seed % 4294967296
  | n + 1 => (createDeterministicRandomGeneratorStep (cdrgStateAt seed n)).1

/-- The `n`-th float produced by a fresh
`createDeterministicRandomGenerator seed` instance. -/
def cdrgValueAt (seed n : Nat) : ℚ :=
  ((createDeterministicRandomGeneratorStep (cdrgStateAt seed n)).2 : ℚ) / 4294967296

/-! ### Rounding -/

/-- The three rounding modes accepted by the loader's validation. -/
inductive RoundMode where
  | nearest
  | floor
  | ceil
deriving DecidableEq, Repr

/-- `roundValueByMode` / `round` from mod.js.  `Math.round x = ⌊x + 1/2⌋`
(JS rounds halves towards +∞). -/
def roundValueByMode (v : ℚ) : RoundMode → ℤ
  | .floor => ⌊v⌋
  | .ceil => ⌈v⌉
  | .nearest => ⌊v + 1/2⌋

/-! ### JS values and the reference/handbook tables -/

/-- A JavaScript value as it can occur in a price field of a reference-table
record: a number, a string (carrying its JS truthiness and the result of
`Number(s)`, `none` when that is `NaN`), or a missing field. -/
inductive PVal where
  | vnum (q : ℚ)
  | vstr (truthy : Bool) (conv : Option ℚ)
  | vnone
deriving DecidableEq, Repr

/-- JS truthiness of a price-field value (`0` and `""` are falsy). -/
def PVal.truthy : PVal → Bool
  | .vnum q => q != 0
  | .vstr t _ => t
  | .vnone => false

/-- JS `a || b` on price-field values. -/
def jsOr (a b : PVal) : PVal := if a.truthy then a else b

/-- `typeof v === "number" && v > 0`: the guarded numeric extraction used by
`_lookupTemplatePriceFromDatabase`. -/
def numPos : PVal → Option ℚ
  | .vnum q => if 0 < q then some q else none
  | _ => none

/-- `typeof v === "string" && !isNaN(Number(v))`: the string-conversion branch
of `_lookupTemplatePriceFromDatabase` (note: no positivity check). -/
def strConv : PVal → Option ℚ
  | .vstr _ (some q) => some q
  | _ => none

/-- One record of the prices or handbook table.  `IdUpper`/`idLower` are the
`.Id`/`.id` keys used by the array-shape `find`. -/
structure PriceRecord where
  IdUpper : Option String
  idLower : Option String
  Price : PVal
  price : PVal
  DefaultPrice : PVal
  basePrice : PVal
deriving DecidableEq, Repr

/-- A reference table in either of the two supported shapes:
array-of-records or map-of-records. -/
inductive TableShape where
  | arr (rows : List PriceRecord)
  | map (rows : List (String × PriceRecord))
deriving DecidableEq, Repr

/-- Generic association-list lookup, modelling JS object / `Map` access. -/
def lookupAssoc {α : Type} (l : List (String × α)) (k : String) : Option α :=
  (l.find? (fun p => p.1 == k)).map (fun p => p.2)

/-- `rows.find(r => r.Id === tid || r.id === tid)` for array-shape tables. -/
def findRecordArr (rows : List PriceRecord) (tid : String) : Option PriceRecord :=
  rows.find? (fun r => r.IdUpper == some tid || r.idLower == some tid)

/-! ### Traders, offers and the database -/

/-- One trade offer (one line of a barter scheme): `_tpl` is `none` when the
field is missing or not a string, `count` is the mutable quantity. -/
structure Offer where
  tpl : Option String
  count : ℚ
deriving DecidableEq, Repr

/-- The value stored under one offer id in `assort.barter_scheme`: either the
offers list itself or a nested array whose first element is the offers list
(`Array.isArray(scheme[0]) ? scheme[0] : scheme`).  A `none` list element
models a `null` entry. -/
inductive BarterOptions where
  | nested (first : List (Option Offer)) (rest : List (List (Option Offer)))
  | flat (offers : List (Option Offer))
deriving DecidableEq, Repr

/-- `Array.isArray(barterOptions[0]) ? barterOptions[0] : barterOptions`. -/
def offersOf : BarterOptions → List (Option Offer)
  | .nested first _ => first
  | .flat offers => offers

/-- One assortment item; a falsy (`""`/missing) `_tpl` or `_id` is `none`. -/
structure AssortItem where
  tpl : Option String
  id : Option String
deriving DecidableEq, Repr

/-- `trader.assort`: `items` is `none` when missing or not an array; list
elements are `Option` to model `null` entries. -/
structure TraderAssort where
  items : Option (List (Option AssortItem))
  barterScheme : Option (List (String × BarterOptions))
deriving DecidableEq, Repr

/-- A vendor in the store. -/
structure Trader where
  nickname : String
  assort : Option TraderAssort
deriving DecidableEq, Repr

/-- The database tables the engine reads: `templates.prices`,
`templates.handbook.Items` (collapsed to one optional table) and `traders`. -/
structure Database where
  prices : Option TableShape
  handbookItems : Option TableShape
  traders : List (String × Trader)
deriving DecidableEq, Repr

/-! ### Configuration -/

/-- The slice of the validated configuration the engine core reads.
`currencyTpls` is the symbolic-name → template-id object kept in insertion
order (defaults define `ruble`, `dollar`, `eur` in that order). -/
structure Config where
  enabled : Bool
  onlyCashTrades : Bool
  stickToBaseline : Bool
  minMultiplier : ℚ
  maxMultiplier : ℚ
  minAbsolute : ℚ
  maxAbsolute : ℚ
  rounding : RoundMode
  currencyConversionRounding : RoundMode
  currencyTpls : List (String × String)
deriving DecidableEq, Repr

/-- `Object.values(config.currencyTpls)`. -/
def currencyValues (cfg : Config) : List String := cfg.currencyTpls.map (fun p => p.2)

/-- `config.currencyTpls.ruble` (`none` when the key is absent). -/
def rubleOf (cfg : Config) : Option String :=
  (cfg.currencyTpls.find? (fun p => p.1 == "ruble")).map (fun p => p.2)

/-! ### Engine state

The mutable fields of the `PriceRandomizer` instance that the modelled
operations touch.  Caches are association lists; a cache entry `(k, none)`
models a memoized `null` (distinct from the key being absent). -/

structure EngineState where
  templatePriceCache : List (String × Option ℚ)
  currencyConversionRateCache : List (String × Option ℚ)
  baselinePriceMap : List (String × ℚ)
  rngState : Nat
deriving DecidableEq, Repr

/-! ### Reference Price Resolver -/

/-- JS falsiness of the resolver's running `resolvedPrice` (`null` or `0`). -/
def jsFalsyQ : Option ℚ → Bool
  | none => true
  | some q => q == 0

/-- The array-shape branch shared by the prices table and the handbook:
`find` the record by id, then take `Price` or `price` when a positive
number. -/
def arrShapePrice (rows : List PriceRecord) (tid : String) : Option ℚ :=
  match findRecordArr rows tid with
  | some e => (numPos e.Price).orElse (fun _ => numPos e.price)
  | none => none

/-- The map-shape branch of the prices table:
`entry.Price || entry.price || entry.DefaultPrice || entry.basePrice`,
accepted when a positive number, else converted when a numeric string
(without a positivity check). -/
def mapShapePrice4 (rows : List (String × PriceRecord)) (tid : String) : Option ℚ :=
  match lookupAssoc rows tid with
  | some e =>
    let extracted := jsOr e.Price (jsOr e.price (jsOr e.DefaultPrice e.basePrice))
    (numPos extracted).orElse (fun _ => strConv extracted)
  | none => none

/-- The map-shape branch of the handbook: `entry.Price || entry.price`,
accepted when a positive number, else converted when a numeric string
(without a positivity check). -/
def mapShapePrice2 (rows : List (String × PriceRecord)) (tid : String) : Option ℚ :=
  match lookupAssoc rows tid with
  | some e =>
    let extracted := jsOr e.Price e.price
    (numPos extracted).orElse (fun _ => strConv extracted)
  | none => none

/-- The `templates.prices` part of `_lookupTemplatePriceFromDatabase`
(verbose mod.js lines 481-492). -/
def priceFromPricesTable (db : Database) (tid : String) : Option ℚ :=
  match db.prices with
  | none => none
  | some (.arr rows) => arrShapePrice rows tid
  | some (.map rows) => mapShapePrice4 rows tid

/-- The handbook fallback of `_lookupTemplatePriceFromDatabase`
(verbose mod.js lines 494-506). -/
def priceFromHandbook (db : Database) (tid : String) : Option ℚ :=
  match db.handbookItems with
  | none => none
  | some (.arr rows) => arrShapePrice rows tid
  | some (.map rows) => mapShapePrice2 rows tid

/-- The pure table scan of `_lookupTemplatePriceFromDatabase`: the prices
table first, then — only when the running result is still falsy — the
handbook, which overwrites it only when its own branch assigns. -/
def resolvePriceFromTables (db : Database) (tid : String) : Option ℚ :=
  let fromPrices := priceFromPricesTable db tid
  if jsFalsyQ fromPrices then
    match priceFromHandbook db tid with
    | some q => some q
    | none => fromPrices
  else fromPrices

/-- `_lookupTemplatePriceFromDatabase` with its memoization cache
(verbose mod.js lines 469-520).  The final `Bool` records whether the
underlying tables were read on this call. -/
def lookupTemplatePriceFromDatabase (st : EngineState) (db : Database)
    (tid : String) : Option ℚ × EngineState × Bool :=
  match lookupAssoc st.templatePriceCache tid with
  | some cached => (cached, st, false)
  | none =>
    let resolved := resolvePriceFromTables db tid
    (resolved,
     { st with templatePriceCache := st.templatePriceCache ++ [(tid, resolved)] },
     true)

/-! ### Currency Converter -/

/-- `_convertRublesToTargetCurrency` (verbose mod.js lines 565-587): looks up
(and caches) the currency's ruble price as exchange rate, storing
`currencyPrice || null` (a `0` rate is stored as `null`); returns the rounded
`rubleAmount / rate`, or `none` when the rate is absent or non-positive.
Over `ℚ` the quotient is always finite, so the `Number.isFinite` guard
cannot fire. -/
def convertRublesToTargetCurrency (cfg : Config) (st : EngineState)
    (db : Database) (rubleAmount : ℤ) (tpl : String) : Option ℤ × EngineState :=
  let rateAndState : Option ℚ × EngineState :=
    match lookupAssoc st.currencyConversionRateCache tpl with
    | some cached => (cached, st)
    | none =>
      let lookedUp := lookupTemplatePriceFromDatabase st db tpl
      let stored : Option ℚ :=
        match lookedUp.1 with
        | some p => if p == 0 then none else some p
        | none => none
      (stored,
       { lookedUp.2.1 with currencyConversionRateCache :=
           lookedUp.2.1.currencyConversionRateCache ++ [(tpl, stored)] })
  match rateAndState.1 with
  | none => (none, rateAndState.2)
  | some rate =>
    if rate ≤ 0 then (none, rateAndState.2)
    else
      (some (roundValueByMode ((rubleAmount : ℚ) / rate) cfg.currencyConversionRounding),
       rateAndState.2)

/-! ### Offer Updater -/

/-- Whether one element of a trade-offer list is a currency offer: non-null,
`_tpl` a string, and `_tpl` among `Object.values(config.currencyTpls)`
(`_findCurrencyOfferInTradeList`, verbose mod.js lines 589-596). -/
def isCurrencyOfferB (cfg : Config) : Option Offer → Bool
  | some o =>
    match o.tpl with
    | some t => (currencyValues cfg).contains t
    | none => false
  | none => false

/-- Index of the first currency offer in the list, mirroring the scan of
`_findCurrencyOfferInTradeList` (the source returns the offer itself; the
index identifies the same offer for the in-place write). -/
def findCurrencyOfferIdx (cfg : Config) : List (Option Offer) → Option Nat
  | [] => none
  | o :: rest =>
    if isCurrencyOfferB cfg o then some 0
    else (findCurrencyOfferIdx cfg rest).map (fun i => i + 1)

/-- `convertedCurrencyAmount || Math.floor(finalRublePrice)`: the converted
amount when truthy, else the fallback (`Math.floor` of the already-integral
rounded ruble price is the identity). -/
def jsFallbackInt (conv : Option ℤ) (p : ℤ) : ℤ :=
  match conv with
  | some c => if c == 0 then p else c
  | none => p

/-- The quantity written into a chosen target offer, and the resulting engine
state: `Math.max(1, finalRublePrice)` for a base-currency offer, otherwise
`Math.max(1, converted || Math.floor(finalRublePrice))`
(`_updateTradeOfferPrice`, verbose mod.js lines 619-624 and 631-636). -/
def offerWriteCount (cfg : Config) (st : EngineState) (db : Database)
    (o : Offer) (finalRublePrice : ℤ) : ℤ × EngineState :=
  if o.tpl == rubleOf cfg then (max 1 finalRublePrice, st)
  else
    let conv := convertRublesToTargetCurrency cfg st db finalRublePrice (o.tpl.getD "")
    (max 1 (jsFallbackInt conv.1 finalRublePrice), conv.2)

/-- `_updateTradeOfferPrice` (verbose mod.js lines 613-639): picks the target
offer (first currency offer in cash-only mode, else the first offer), writes
the new quantity into its `count` field and reports whether a write occurred.
`some (i, v)` means quantity `v` was written into the offer at index `i`;
`none` means no update. -/
def updateTradeOfferPrice (cfg : Config) (st : EngineState) (db : Database)
    (offers : List (Option Offer)) (finalRublePrice : ℤ) :
    Option (Nat × ℤ) × EngineState :=
  let targetIdx : Option Nat :=
    if cfg.onlyCashTrades then findCurrencyOfferIdx cfg offers
    else
      match offers.head? with
      | some (some _) => some 0
      | _ => none
  match targetIdx with
  | none => (none, st)
  | some i =>
    match offers.get? i with
    | some (some o) =>
      let written := offerWriteCount cfg st db o finalRublePrice
      (some (i, written.1), written.2)
    | _ => (none, st)

/-- The trade-offer list after a write: `target.count = v`. -/
def applyOfferWrite (offers : List (Option Offer)) : Option (Nat × ℤ) → List (Option Offer)
  | none => offers
  | some (i, v) =>
    match offers.get? i with
    | some (some o) => offers.set i (some { o with count := (v : ℚ) })
    | _ => offers

/-! ### Price Randomizer -/

/-- The linear map of one generator draw `r` into the multiplier range
(`_calculateRandomizedPrice`, verbose mod.js line 599). -/
def computedMultiplier (cfg : Config) (r : ℚ) : ℚ :=
  r * (cfg.maxMultiplier - cfg.minMultiplier) + cfg.minMultiplier

/-- `_calculateRandomizedPrice` with the generator draw `r` made explicit:
multiply the baseline, clamp into the configured absolute bounds (a bound of
`0` — or any non-positive value, which is also falsy — disables that side),
and round (verbose mod.js lines 598-611). -/
def calculateRandomizedPriceWith (cfg : Config) (r : ℚ) (baselinePrice : ℚ) : ℤ :=
  let price0 := baselinePrice * computedMultiplier cfg r
  let price1 := if 0 < cfg.minAbsolute then max price0 cfg.minAbsolute else price0
  let price2 := if 0 < cfg.maxAbsolute then min price1 cfg.maxAbsolute else price1
  roundValueByMode price2 cfg.rounding

/-- `_calculateRandomizedPrice` as executed by the engine: draws one value
from the deterministic generator and advances its state by one step. -/
def calculateRandomizedPrice (cfg : Config) (st : EngineState)
    (baselinePrice : ℚ) : ℤ × EngineState :=
  let stepped := createDeterministicRandomGeneratorStep st.rngState
  (calculateRandomizedPriceWith cfg ((stepped.2 : ℚ) / 4294967296) baselinePrice,
   { st with rngState := stepped.1 })

/-! ### Baseline Builder -/

/-- JS `Set.add` keeps first-insertion order and deduplicates. -/
def addUnique (acc : List String) (t : String) : List String :=
  if acc.contains t then acc else acc ++ [t]

/-- The template-collection phase of `_buildBaselinePricesFromTraders`
(verbose mod.js lines 534-547): the distinct `_tpl`s, in first-seen order,
of all items of all target traders present in the store. -/
def collectUniqueTemplates (db : Database) (targetTraderIds : List String) : List String :=
  targetTraderIds.foldl
    (fun acc tid =>
      match lookupAssoc db.traders tid with
      | none => acc
      | some tr =>
        match tr.assort with
        | none => acc
        | some assort =>
          match assort.items with
          | none => acc
          | some items =>
            items.foldl
              (fun acc it =>
                match it with
                | some it =>
                  match it.tpl with
                  | some t => if t ≠ "" then addUnique acc t else acc
                  | none => acc
                | none => acc)
              acc)
    []

/-- `_buildBaselinePricesFromTraders` (verbose mod.js lines 522-563): a no-op
when not forced, retention (`stickToBaseline`) is on and a non-empty baseline
exists; otherwise clears the baseline map and rebuilds it from the resolver,
keeping only strictly positive prices. -/
def buildBaselinePricesFromTraders (cfg : Config) (st : EngineState)
    (db : Database) (targetTraderIds : List String) (forceRebuild : Bool) :
    EngineState :=
  if !forceRebuild && cfg.stickToBaseline && decide (0 < st.baselinePriceMap.length) then
    st
  else
    let cleared := { st with baselinePriceMap := [] }
    (collectUniqueTemplates db targetTraderIds).foldl
      (fun st tid =>
        let looked := lookupTemplatePriceFromDatabase st db tid
        match looked.1 with
        | some p =>
          if 0 < p then
            { looked.2.1 with baselinePriceMap := looked.2.1.baselinePriceMap ++ [(tid, p)] }
          else looked.2.1
        | none => looked.2.1)
      cleared

/-! ### Per-trader processing -/

/-- The body of the assortment loop of `_randomizeTraderPrices` (verbose
mod.js lines 682-699) for one item, threading the count of successful writes
and the engine state. -/
def processAssortItem (cfg : Config) (db : Database)
    (scheme : List (String × BarterOptions)) (acc : Nat × EngineState)
    (it : Option AssortItem) : Nat × EngineState :=
  match it with
  | none => acc
  | some it =>
    match it.tpl, it.id with
    | some tpl, some offerId =>
      if tpl = "" ∨ offerId = "" then acc
      else
        match lookupAssoc acc.2.baselinePriceMap tpl with
        | none => acc
        | some b =>
          if b ≤ 0 then acc
          else
            let priced := calculateRandomizedPrice cfg acc.2 b
            match lookupAssoc scheme offerId with
            | none => (acc.1, priced.2)
            | some opts =>
              let updated := updateTradeOfferPrice cfg priced.2 db (offersOf opts) priced.1
              match updated.1 with
              | some _ => (acc.1 + 1, updated.2)
              | none => (acc.1, updated.2)
    | _, _ => acc

/-- The assortment loop itself (a JS `for … of` over the items array). -/
def randomizeItemsLoop (cfg : Config) (db : Database)
    (scheme : List (String × BarterOptions)) :
    Nat × EngineState → List (Option AssortItem) → Nat × EngineState
  | acc, [] => acc
  | acc, it :: rest =>
    randomizeItemsLoop cfg db scheme (processAssortItem cfg db scheme acc it) rest

/-- `_randomizeTraderPrices` (verbose mod.js lines 676-705): returns the
number of modified offers and the engine state after processing one trader. -/
def randomizeTraderPrices (cfg : Config) (st : EngineState) (db : Database)
    (tr : Trader) : Nat × EngineState :=
  match tr.assort with
  | none => (0, st)
  | some assort =>
    randomizeItemsLoop cfg db (assort.barterScheme.getD [])
      (0, st) (assort.items.getD [])

/-! ### Cycle Scheduler: the per-trader loop -/

/-- What the trader loop of `_executeOneRandomizationCycle` logs for one
vendor identifier. -/
inductive CycleLog where
  | warnMissing (id : String)
  | errorProcessing (id : String) (msg : String)
  | processed (id : String)
deriving DecidableEq, Repr

/-- The vendor identifier a log entry concerns. -/
def cycleLogId : CycleLog → String
  | .warnMissing id => id
  | .errorProcessing id _ => id
  | .processed id => id

/-- The trader loop of `_executeOneRandomizationCycle` (verbose mod.js lines
725-736).  The per-vendor body is abstracted as `process`, which returns the
mutated state together with `some msg` when it raised a JS exception with
message `msg` (mutations made before the throw persist); the `try`/`catch`
turns the exception into an error log entry and continues. -/
def runTraderLoop {σ : Type} (process : σ → Trader → σ × Option String)
    (traders : List (String × Trader)) : σ → List String → σ × List CycleLog
  | s, [] => (s, [])
  | s, id :: rest =>
    match lookupAssoc traders id with
    | none =>
      let tail := runTraderLoop process traders s rest
      (tail.1, .warnMissing id :: tail.2)
    | some tr =>
      let stepped := process s tr
      let tail := runTraderLoop process traders stepped.1 rest
      (tail.1,
       (match stepped.2 with
        | some msg => CycleLog.errorProcessing id msg
        | none => CycleLog.processed id) :: tail.2)

/-- The per-trader phase of `_executeOneRandomizationCycle` with the actual
(non-throwing in this embedding) per-trader body plugged in. -/
def executeCycleTraderPhase (cfg : Config) (st : EngineState) (db : Database)
    (activeTraderIds : List String) : EngineState × List CycleLog :=
  runTraderLoop (fun st tr => ((randomizeTraderPrices cfg st db tr).2, none))
    db.traders st activeTraderIds

/-! ### Loader validation of the numeric bounds

From `src/aio-price-randomizer-loader.js` (`loadAndValidateConfig`):
`Number(x) || default`, swap of the multiplier bounds when out of order,
clamping of the absolute bounds at `0` and their swap.  Inputs are already
numeric (`ℚ`), so `Number` is the identity and `x || d` is `d` exactly when
`x = 0`. -/

def loaderNormalizeBounds (rawMinMult rawMaxMult rawMinAbs rawMaxAbs : ℚ) :
    ℚ × ℚ × ℚ × ℚ :=
  let minM := if rawMinMult == 0 then 85/100 else rawMinMult
  let maxM := if rawMaxMult == 0 then 135/100 else rawMaxMult
  let mm := if maxM < minM then (maxM, minM) else (minM, maxM)
  let minA := max 0 (if rawMinAbs == 0 then 0 else rawMinAbs)
  let maxA := max 0 (if rawMaxAbs == 0 then 0 else rawMaxAbs)
  let aa := if 0 < maxA ∧ maxA < minA then (maxA, minA) else (minA, maxA)
  (mm.1, mm.2, aa.1, aa.2)

/-! ### Definitions following the spec's words (for comparison with the code)

These two predicates formalize claim wordings, to be compared against the
source-derived behaviour; they are not part of the program. -/

/-- Spec wording of claim C10: an assortment item "has a strictly positive
baseline price" (no condition on the identifiers). -/
def specItemHasPositiveBaseline (st : EngineState) : Option AssortItem → Bool
  | some it =>
    match it.tpl with
    | some t =>
      match lookupAssoc st.baselinePriceMap t with
      | some b => decide (0 < b)
      | none => false
    | none => false
  | none => false

/-- Number of assortment items of a trader that the spec wording of C10
counts as carrying a baseline. -/
def specCountBaselineItems (st : EngineState) (tr : Trader) : Nat :=
  ((tr.assort.bind (fun a => a.items)).getD []).countP (specItemHasPositiveBaseline st)

/-! ### Source-derived eligibility for a generator draw (claim C10) -/

/-- The exact condition under which `_randomizeTraderPrices` reaches
`_calculateRandomizedPrice` for an item: non-null, truthy `_tpl` and `_id`,
and a strictly positive baseline for its template. -/
def eligibleForRngDraw (st : EngineState) : Option AssortItem → Bool
  | some it =>
    match it.tpl, it.id with
    | some tpl, some offerId =>
      if tpl = "" ∨ offerId = "" then false
      else
        match lookupAssoc st.baselinePriceMap tpl with
        | some b => decide (0 < b)
        | none => false
    | _, _ => false
  | none => false

/-- Number of assortment items of a trader that consume a generator draw. -/
def countEligibleItems (st : EngineState) (tr : Trader) : Nat :=
  ((tr.assort.bind (fun a => a.items)).getD []).countP (eligibleForRngDraw st)

/-- One advancement of the engine's generator state. -/
def rngAdvance (s : Nat) : Nat := (createDeterministicRandomGeneratorStep s).1

/-! ### Numeric-only tables (claim C7) -/

/-- A price-field value that is not a JS string. -/
def PVal.notStr : PVal → Bool
  | .vstr _ _ => false
  | _ => true

/-- All four price-bearing fields of a record hold numbers or are missing. -/
def recordNumeric (r : PriceRecord) : Bool :=
  r.Price.notStr && r.price.notStr && r.DefaultPrice.notStr && r.basePrice.notStr

/-- Every record of a table is numeric. -/
def shapeNumeric : TableShape → Bool
  | .arr rows => rows.all recordNumeric
  | .map rows => rows.all (fun p => recordNumeric p.2)

/-- Both reference tables hold only numeric (or missing) price values. -/
def dbTablesNumeric (db : Database) : Bool :=
  (match db.prices with | some s => shapeNumeric s | none => true) &&
  (match db.handbookItems with | some s => shapeNumeric s | none => true)

/-- The contract of the Reference Price Resolver: a strictly positive price
or absent. -/
def posOrAbsent (x : Option ℚ) : Prop := x = none ∨ ∃ q, x = some q ∧ 0 < q

/-- An engine state that differs from `st` at most in the two lookup caches
and the generator state — the baseline map is untouched.  Used to
characterize which fields each operation can mutate. -/
def cacheRngUpdate (st : EngineState) (tc cc : List (String × Option ℚ))
    (r : Nat) : EngineState :=
  { st with templatePriceCache := tc, currencyConversionRateCache := cc,
            rngState := r }

/-! ### Concrete inputs for counterexamples and witnesses -/

/-- A configuration with the loader's default values. -/
def cfgBase : Config :=
  { enabled := true
    onlyCashTrades := true
    stickToBaseline := true
    minMultiplier := 85/100
    maxMultiplier := 135/100
    minAbsolute := 0
    maxAbsolute := 0
    rounding := .nearest
    currencyConversionRounding := .nearest
    currencyTpls := [("ruble", "RUB"), ("dollar", "USD"), ("eur", "EUR")] }

/-- A configuration that passes the loader's validation with negative
multiplier bounds. -/
def cfgNegMult : Config :=
  { cfgBase with minMultiplier := -1, maxMultiplier := -1 }

/-- The engine state right after construction. -/
def stEmpty : EngineState :=
  { templatePriceCache := []
    currencyConversionRateCache := []
    baselinePriceMap := []
    rngState := 0 }

/-- An engine state with one frozen baseline entry. -/
def stBase : EngineState := { stEmpty with baselinePriceMap := [("x", 100)] }

/-- An empty store. -/
def dbEmpty : Database := { prices := none, handbookItems := none, traders := [] }

/-- A record with no id keys and all price fields missing except as set. -/
def recEmpty : PriceRecord :=
  { IdUpper := none, idLower := none
    Price := .vnone, price := .vnone, DefaultPrice := .vnone, basePrice := .vnone }

/-- A map-shaped prices table whose entry for `"x"` holds the numeric string
`"-5"` in its `Price` field. -/
def dbStrNeg : Database :=
  { prices := some (.map [("x", { recEmpty with Price := .vstr true (some (-5)) })])
    handbookItems := none
    traders := [] }

/-- A map-shaped prices table whose entry for `"x"` holds the number `100`. -/
def dbNumeric : Database :=
  { prices := some (.map [("x", { recEmpty with Price := .vnum 100 })])
    handbookItems := none
    traders := [] }

/-- A single base-currency trade offer. -/
def offersRubleOnly : List (Option Offer) := [some { tpl := some "RUB", count := 5 }]

/-- A dollar offer listed before a ruble offer. -/
def offersDollarFirst : List (Option Offer) :=
  [some { tpl := some "USD", count := 5 }, some { tpl := some "RUB", count := 7 }]

/-- A trader with one assortment item whose `_id` is missing although its
template has a baseline price. -/
def traderMissingOfferId : Trader :=
  { nickname := "T"
    assort := some
      { items := some [some { tpl := some "x", id := none }]
        barterScheme := some [] } }

/-! ## Supporting lemmas -/

theorem offerWriteCount_ge_one (cfg : Config) (st : EngineState) (db : Database)
    (o : Offer) (p : ℤ) : 1 ≤ (offerWriteCount cfg st db o p).1 := by
  unfold offerWriteCount
  split
  · exact le_max_left _ _
  · exact le_max_left _ _

theorem roundValueByMode_nonneg (v : ℚ) (hv : 0 ≤ v) (m : RoundMode) :
    0 ≤ roundValueByMode v m := by
  cases m with
  | floor => exact Int.floor_nonneg.mpr hv
  | ceil => exact Int.ceil_nonneg hv
  | nearest => exact Int.floor_nonneg.mpr (by linarith)

theorem seededRandomStep_eq_cdrgStep :
    seededRandomStep = createDeterministicRandomGeneratorStep := rfl

theorem seededRandomStateAt_eq_cdrgStateAt (seed j : Nat) :
    seededRandomStateAt seed j = cdrgStateAt seed j := by
  induction j with
  | zero => rfl
  | succ k ih =>
    show (seededRandomStep (seededRandomStateAt seed k)).1 =
      (createDeterministicRandomGeneratorStep (cdrgStateAt seed k)).1
    rw [ih, seededRandomStep_eq_cdrgStep]

theorem findCurrencyOfferIdx_spec (cfg : Config) (offers : List (Option Offer))
    (i : Nat) (h : findCurrencyOfferIdx cfg offers = some i) :
    ∃ o, offers.get? i = some o ∧ isCurrencyOfferB cfg o = true ∧
      ∀ j, j < i → ∀ o', offers.get? j = some o' → isCurrencyOfferB cfg o' = false := by
  induction offers generalizing i with
  | nil => simp [findCurrencyOfferIdx] at h
  | cons o rest ih =>
    by_cases hc : isCurrencyOfferB cfg o
    · simp only [findCurrencyOfferIdx, hc, if_true] at h
      injection h with h
      subst h
      exact ⟨o, rfl, hc, fun j hj => absurd hj (Nat.not_lt_zero j)⟩
    · simp only [findCurrencyOfferIdx, hc, if_false, Bool.false_eq_true] at h
      cases hf : findCurrencyOfferIdx cfg rest with
      | none => rw [hf] at h; simp at h
      | some i' =>
        rw [hf] at h
        simp only [Option.map_some', Option.some.injEq] at h
        subst h
        obtain ⟨o', hg, hcur, hmin⟩ := ih i' hf
        refine ⟨o', by simpa using hg, hcur, ?_⟩
        intro j hj o'' hg''
        cases j with
        | zero =>
          simp only [List.get?] at hg''
          injection hg'' with hg''
          rw [← hg'']
          exact Bool.eq_false_iff.mpr hc
        | succ j' =>
          exact hmin j' (Nat.lt_of_succ_lt_succ hj) o'' (by simpa using hg'')

theorem numPos_posOrAbsent (v : PVal) : posOrAbsent (numPos v) := by
  unfold posOrAbsent
  cases v with
  | vnum q =>
    by_cases hq : 0 < q
    · exact Or.inr ⟨q, by simp [numPos, hq], hq⟩
    · left
      simp [numPos, hq]
  | vstr t c => exact Or.inl rfl
  | vnone => exact Or.inl rfl

theorem strConv_eq_none_of_notStr (v : PVal) (h : v.notStr = true) :
    strConv v = none := by
  cases v with
  | vnum q => rfl
  | vstr t c => simp [PVal.notStr] at h
  | vnone => rfl

theorem jsOr_notStr (a b : PVal) (ha : a.notStr = true) (hb : b.notStr = true) :
    (jsOr a b).notStr = true := by
  unfold jsOr
  split <;> assumption

theorem orElse_posOrAbsent (x : Option ℚ) (f : Unit → Option ℚ)
    (hx : posOrAbsent x) (hf : posOrAbsent (f ())) : posOrAbsent (x.orElse f) := by
  cases x with
  | none => exact hf
  | some q =>
    rcases hx with hx | ⟨q', hq', hpos⟩
    · exact absurd hx (by simp)
    · injection hq' with hq'
      subst hq'
      exact Or.inr ⟨q, rfl, hpos⟩

theorem lookupAssoc_exists_mem {α : Type} (l : List (String × α)) (k : String)
    (v : α) (h : lookupAssoc l k = some v) : ∃ p ∈ l, p.2 = v := by
  unfold lookupAssoc at h
  cases hf : l.find? (fun p => p.1 == k) with
  | none => rw [hf] at h; simp at h
  | some p =>
    rw [hf] at h
    simp only [Option.map_some', Option.some.injEq] at h
    exact ⟨p, List.mem_of_find?_eq_some hf, h⟩

theorem find?_cons_eq_ite {α : Type} (p : α → Bool) (a : α) (l : List α) :
    (a :: l).find? p = if p a then some a else l.find? p := by
  by_cases h : p a <;> simp only [List.find?, h, if_true, if_false,
    Bool.false_eq_true]

theorem lookupAssoc_append_self {α : Type} (l : List (String × α)) (k : String)
    (v : α) (h : lookupAssoc l k = none) : lookupAssoc (l ++ [(k, v)]) k = some v := by
  induction l with
  | nil => simp [lookupAssoc]
  | cons p rest ih =>
    unfold lookupAssoc at h ⊢
    rw [find?_cons_eq_ite] at h
    rw [List.cons_append, find?_cons_eq_ite]
    by_cases hp : p.1 == k
    · rw [if_pos hp] at h
      simp at h
    · rw [if_neg hp] at h
      rw [if_neg hp]
      exact ih h

theorem recordNumeric_fields (r : PriceRecord) (h : recordNumeric r = true) :
    r.Price.notStr = true ∧ r.price.notStr = true ∧
    r.DefaultPrice.notStr = true ∧ r.basePrice.notStr = true := by
  unfold recordNumeric at h
  simp only [Bool.and_eq_true] at h
  exact ⟨h.1.1.1, h.1.1.2, h.1.2, h.2⟩

theorem arrShapePrice_posOrAbsent (rows : List PriceRecord) (tid : String) :
    posOrAbsent (arrShapePrice rows tid) := by
  unfold arrShapePrice
  cases hfind : findRecordArr rows tid with
  | none => exact Or.inl rfl
  | some e => exact orElse_posOrAbsent _ _ (numPos_posOrAbsent _) (numPos_posOrAbsent _)

theorem mapShapePrice4_posOrAbsent (rows : List (String × PriceRecord))
    (tid : String) (hs : rows.all (fun p => recordNumeric p.2) = true) :
    posOrAbsent (mapShapePrice4 rows tid) := by
  unfold mapShapePrice4
  cases hfind : lookupAssoc rows tid with
  | none => exact Or.inl rfl
  | some e =>
    obtain ⟨p, hpmem, hpe⟩ := lookupAssoc_exists_mem rows tid e hfind
    have hnum : recordNumeric e = true := hpe ▸ List.all_eq_true.mp hs p hpmem
    obtain ⟨h1, h2, h3, h4⟩ := recordNumeric_fields e hnum
    have hext : (jsOr e.Price (jsOr e.price (jsOr e.DefaultPrice e.basePrice))).notStr = true :=
      jsOr_notStr _ _ h1 (jsOr_notStr _ _ h2 (jsOr_notStr _ _ h3 h4))
    refine orElse_posOrAbsent _ _ (numPos_posOrAbsent _) ?_
    show posOrAbsent (strConv (jsOr e.Price (jsOr e.price (jsOr e.DefaultPrice e.basePrice))))
    rw [strConv_eq_none_of_notStr _ hext]
    exact Or.inl rfl

theorem mapShapePrice2_posOrAbsent (rows : List (String × PriceRecord))
    (tid : String) (hs : rows.all (fun p => recordNumeric p.2) = true) :
    posOrAbsent (mapShapePrice2 rows tid) := by
  unfold mapShapePrice2
  cases hfind : lookupAssoc rows tid with
  | none => exact Or.inl rfl
  | some e =>
    obtain ⟨p, hpmem, hpe⟩ := lookupAssoc_exists_mem rows tid e hfind
    have hnum : recordNumeric e = true := hpe ▸ List.all_eq_true.mp hs p hpmem
    obtain ⟨h1, h2, _, _⟩ := recordNumeric_fields e hnum
    have hext : (jsOr e.Price e.price).notStr = true := jsOr_notStr _ _ h1 h2
    refine orElse_posOrAbsent _ _ (numPos_posOrAbsent _) ?_
    show posOrAbsent (strConv (jsOr e.Price e.price))
    rw [strConv_eq_none_of_notStr _ hext]
    exact Or.inl rfl

theorem priceFromPricesTable_posOrAbsent (db : Database) (tid : String)
    (h : dbTablesNumeric db = true) : posOrAbsent (priceFromPricesTable db tid) := by
  unfold priceFromPricesTable
  cases hp : db.prices with
  | none => exact Or.inl rfl
  | some s =>
    have hs : shapeNumeric s = true := by
      unfold dbTablesNumeric at h
      rw [hp] at h
      exact ((Bool.and_eq_true _ _).mp h).1
    cases s with
    | arr rows => exact arrShapePrice_posOrAbsent rows tid
    | map rows => exact mapShapePrice4_posOrAbsent rows tid hs

theorem priceFromHandbook_posOrAbsent (db : Database) (tid : String)
    (h : dbTablesNumeric db = true) : posOrAbsent (priceFromHandbook db tid) := by
  unfold priceFromHandbook
  cases hp : db.handbookItems with
  | none => exact Or.inl rfl
  | some s =>
    have hs : shapeNumeric s = true := by
      unfold dbTablesNumeric at h
      rw [hp] at h
      exact ((Bool.and_eq_true _ _).mp h).2
    cases s with
    | arr rows => exact arrShapePrice_posOrAbsent rows tid
    | map rows => exact mapShapePrice2_posOrAbsent rows tid hs

theorem cacheRngUpdate_self (st : EngineState) :
    cacheRngUpdate st st.templatePriceCache st.currencyConversionRateCache
      st.rngState = st := rfl

theorem cacheRngUpdate_comp (st : EngineState)
    (a b tc cc : List (String × Option ℚ)) (r r2 : Nat) :
    cacheRngUpdate (cacheRngUpdate st a b r) tc cc r2 =
      cacheRngUpdate st tc cc r2 := rfl

theorem cacheRngUpdate_rngState (st : EngineState)
    (tc cc : List (String × Option ℚ)) (r : Nat) :
    (cacheRngUpdate st tc cc r).rngState = r := rfl

theorem cacheRngUpdate_baselinePriceMap (st : EngineState)
    (tc cc : List (String × Option ℚ)) (r : Nat) :
    (cacheRngUpdate st tc cc r).baselinePriceMap = st.baselinePriceMap := rfl

theorem lookup_state_shape (st : EngineState) (db : Database) (tid : String) :
    ∃ tc cc, (lookupTemplatePriceFromDatabase st db tid).2.1 =
      cacheRngUpdate st tc cc st.rngState := by
  unfold lookupTemplatePriceFromDatabase
  cases hc : lookupAssoc st.templatePriceCache tid with
  | some cached =>
    refine ⟨st.templatePriceCache, st.currencyConversionRateCache, ?_⟩
    simp only [hc]
    exact (cacheRngUpdate_self st).symm
  | none =>
    refine ⟨st.templatePriceCache ++ [(tid, resolvePriceFromTables db tid)],
      st.currencyConversionRateCache, ?_⟩
    simp only [hc]
    rfl

theorem convert_state_shape (cfg : Config) (st : EngineState) (db : Database)
    (p : ℤ) (tpl : String) :
    ∃ tc cc, (convertRublesToTargetCurrency cfg st db p tpl).2 =
      cacheRngUpdate st tc cc st.rngState := by
  unfold convertRublesToTargetCurrency
  cases hc : lookupAssoc st.currencyConversionRateCache tpl with
  | some cached =>
    simp only [hc]
    refine ⟨st.templatePriceCache, st.currencyConversionRateCache, ?_⟩
    cases cached with
    | none => exact (cacheRngUpdate_self st).symm
    | some rate =>
      by_cases hr : rate ≤ 0
      · simp only [hr, if_true]
        exact (cacheRngUpdate_self st).symm
      · simp only [hr, if_false]
        exact (cacheRngUpdate_self st).symm
  | none =>
    simp only [hc]
    obtain ⟨tc0, cc0, hL⟩ := lookup_state_shape st db tpl
    cases hres : (lookupTemplatePriceFromDatabase st db tpl).1 with
    | none =>
      refine ⟨tc0, cc0 ++ [(tpl, none)], ?_⟩
      simp only [hres, hL]
      rfl
    | some pr =>
      by_cases hz : pr == 0
      · refine ⟨tc0, cc0 ++ [(tpl, none)], ?_⟩
        simp only [hres, hz, if_true, hL]
        rfl
      · refine ⟨tc0, cc0 ++ [(tpl, some pr)], ?_⟩
        simp only [hres, hz, Bool.false_eq_true, if_false, hL]
        by_cases hneg : pr ≤ 0
        · rw [if_pos hneg]
          rfl
        · rw [if_neg hneg]
          rfl

theorem offerWriteCount_state_shape (cfg : Config) (st : EngineState)
    (db : Database) (o : Offer) (p : ℤ) :
    ∃ tc cc, (offerWriteCount cfg st db o p).2 =
      cacheRngUpdate st tc cc st.rngState := by
  unfold offerWriteCount
  split
  · exact ⟨st.templatePriceCache, st.currencyConversionRateCache,
      (cacheRngUpdate_self st).symm⟩
  · exact convert_state_shape cfg st db p (o.tpl.getD "")

theorem updateOffer_state_shape (cfg : Config) (st : EngineState)
    (db : Database) (offers : List (Option Offer)) (p : ℤ) :
    ∃ tc cc, (updateTradeOfferPrice cfg st db offers p).2 =
      cacheRngUpdate st tc cc st.rngState := by
  have hself : ∃ tc cc, st = cacheRngUpdate st tc cc st.rngState :=
    ⟨st.templatePriceCache, st.currencyConversionRateCache,
     (cacheRngUpdate_self st).symm⟩
  unfold updateTradeOfferPrice
  by_cases hc : cfg.onlyCashTrades <;>
    simp only [hc, if_true, if_false, Bool.false_eq_true]
  · cases hf : findCurrencyOfferIdx cfg offers with
    | none => exact hself
    | some i =>
      simp only
      cases hg : offers.get? i with
      | none => exact hself
      | some oo =>
        cases oo with
        | none => exact hself
        | some o => exact offerWriteCount_state_shape cfg st db o p
  · cases hh : offers.head? with
    | none => exact hself
    | some oo =>
      cases oo with
      | none => exact hself
      | some o0 =>
        simp only
        cases hg : offers.get? 0 with
        | none => exact hself
        | some oo2 =>
          cases oo2 with
          | none => exact hself
          | some o => exact offerWriteCount_state_shape cfg st db o p

theorem calculateRandomizedPrice_state (cfg : Config) (st : EngineState) (b : ℚ) :
    (calculateRandomizedPrice cfg st b).2 =
      cacheRngUpdate st st.templatePriceCache st.currencyConversionRateCache
        (rngAdvance st.rngState) := rfl

theorem eligibleForRngDraw_cacheRngUpdate (st : EngineState)
    (tc cc : List (String × Option ℚ)) (r : Nat) :
    eligibleForRngDraw (cacheRngUpdate st tc cc r) = eligibleForRngDraw st := rfl

theorem processAssortItem_state (cfg : Config) (db : Database)
    (scheme : List (String × BarterOptions)) (n : Nat) (st : EngineState)
    (it : Option AssortItem) :
    ∃ tc cc, (processAssortItem cfg db scheme (n, st) it).2 =
      cacheRngUpdate st tc cc
        (if eligibleForRngDraw st it then rngAdvance st.rngState
         else st.rngState) := by
  have hself : ∀ h : eligibleForRngDraw st it = false,
      ∃ tc cc, st = cacheRngUpdate st tc cc
        (if eligibleForRngDraw st it then rngAdvance st.rngState
         else st.rngState) := by
    intro h
    rw [h]
    exact ⟨st.templatePriceCache, st.currencyConversionRateCache,
      by simpa using (cacheRngUpdate_self st).symm⟩
  cases it with
  | none =>
    simp only [processAssortItem]
    exact hself rfl
  | some it =>
    cases htpl : it.tpl with
    | none =>
      simp only [processAssortItem, htpl]
      exact hself (by simp [eligibleForRngDraw, htpl])
    | some tpl =>
      cases hid : it.id with
      | none =>
        simp only [processAssortItem, htpl, hid]
        exact hself (by simp [eligibleForRngDraw, htpl, hid])
      | some offerId =>
        by_cases hemp : tpl = "" ∨ offerId = ""
        · simp only [processAssortItem, htpl, hid, if_pos hemp]
          exact hself (by simp [eligibleForRngDraw, htpl, hid, if_pos hemp])
        · simp only [processAssortItem, htpl, hid, if_neg hemp]
          cases hb : lookupAssoc st.baselinePriceMap tpl with
          | none =>
            simp only [hb]
            exact hself (by simp [eligibleForRngDraw, htpl, hid, if_neg hemp, hb])
          | some b =>
            simp only [hb]
            by_cases hble : b ≤ 0
            · rw [if_pos hble]
              exact hself (by
                simp [eligibleForRngDraw, htpl, hid, if_neg hemp, hb,
                  not_lt.mpr hble])
            · rw [if_neg hble]
              have helig : eligibleForRngDraw st (some it) = true := by
                simp [eligibleForRngDraw, htpl, hid, if_neg hemp, hb,
                  not_le.mp hble]
              rw [helig]
              simp only [if_true]
              cases hs : lookupAssoc scheme offerId with
              | none =>
                simp only [hs]
                exact ⟨st.templatePriceCache, st.currencyConversionRateCache,
                  calculateRandomizedPrice_state cfg st b⟩
              | some opts =>
                simp only [hs]
                obtain ⟨tc, cc, hu⟩ := updateOffer_state_shape cfg
                  (calculateRandomizedPrice cfg st b).2 db (offersOf opts)
                  (calculateRandomizedPrice cfg st b).1
                refine ⟨tc, cc, ?_⟩
                cases hu1 : (updateTradeOfferPrice cfg
                    (calculateRandomizedPrice cfg st b).2 db (offersOf opts)
                    (calculateRandomizedPrice cfg st b).1).1 with
                | none =>
                  simp only [hu1]
                  rw [hu, calculateRandomizedPrice_state, cacheRngUpdate_rngState,
                    cacheRngUpdate_comp]
                | some w =>
                  simp only [hu1]
                  rw [hu, calculateRandomizedPrice_state, cacheRngUpdate_rngState,
                    cacheRngUpdate_comp]

theorem randomizeItemsLoop_state (cfg : Config) (db : Database)
    (scheme : List (String × BarterOptions)) :
    ∀ (l : List (Option AssortItem)) (n : Nat) (st : EngineState),
      ∃ tc cc, (randomizeItemsLoop cfg db scheme (n, st) l).2 =
        cacheRngUpdate st tc cc
          (rngAdvance^[l.countP (eligibleForRngDraw st)] st.rngState) := by
  intro l
  induction l with
  | nil =>
    intro n st
    refine ⟨st.templatePriceCache, st.currencyConversionRateCache, ?_⟩
    show st = _
    rw [List.countP_nil, Function.iterate_zero_apply, cacheRngUpdate_self]
  | cons it rest ih =>
    intro n st
    obtain ⟨tc1, cc1, h1⟩ := processAssortItem_state cfg db scheme n st it
    rcases hp : processAssortItem cfg db scheme (n, st) it with ⟨n', st'⟩
    rw [hp] at h1
    have h1' : st' = cacheRngUpdate st tc1 cc1
        (if eligibleForRngDraw st it then rngAdvance st.rngState
         else st.rngState) := h1
    obtain ⟨tc2, cc2, h2⟩ := ih n' st'
    refine ⟨tc2, cc2, ?_⟩
    have hloop : randomizeItemsLoop cfg db scheme (n, st) (it :: rest) =
        randomizeItemsLoop cfg db scheme (n', st') rest := by
      show randomizeItemsLoop cfg db scheme
        (processAssortItem cfg db scheme (n, st) it) rest = _
      rw [hp]
    rw [hloop, h2, h1', eligibleForRngDraw_cacheRngUpdate, cacheRngUpdate_rngState,
      cacheRngUpdate_comp, List.countP_cons]
    by_cases he : eligibleForRngDraw st it
    · rw [if_pos he]
      simp only [he, if_true]
      rw [Function.iterate_succ_apply]
    · rw [if_neg he]
      simp only [he, Bool.false_eq_true, if_false, Nat.add_zero]

/-! ## Claim theorems -/

/-- Claim C1: for every trade-offer list, computed base-currency price, and store,
whenever the Offer Updater reports that a write occurred, the quantity it
wrote into the target offer's `count` field is at least `1` — including when
the computed price rounds to `0`, is negative, or when currency conversion
returns unavailable. -/
theorem offerUpdater_written_quantity_ge_one (cfg : Config) (st : EngineState)
    (db : Database) (offers : List (Option Offer)) (finalRublePrice : ℤ)
    (i : Nat) (v : ℤ)
    (h : (updateTradeOfferPrice cfg st db offers finalRublePrice).1 = some (i, v)) :
    1 ≤ v := by
  unfold updateTradeOfferPrice at h
  by_cases hc : cfg.onlyCashTrades <;>
    simp only [hc, if_true, if_false, Bool.false_eq_true] at h
  · cases hf : findCurrencyOfferIdx cfg offers with
    | none => rw [hf] at h; simp at h
    | some i' =>
      rw [hf] at h
      simp only at h
      cases hg : offers.get? i' with
      | none => rw [hg] at h; simp at h
      | some oo =>
        cases oo with
        | none => rw [hg] at h; simp at h
        | some o =>
          rw [hg] at h
          simp only [Option.some.injEq, Prod.mk.injEq] at h
          rw [← h.2]
          exact offerWriteCount_ge_one cfg st db o finalRublePrice
  · cases hh : offers.head? with
    | none => rw [hh] at h; simp at h
    | some oo =>
      cases oo with
      | none => rw [hh] at h; simp at h
      | some o0 =>
        rw [hh] at h
        simp only at h
        cases hg : offers.get? 0 with
        | none => rw [hg] at h; simp at h
        | some oo2 =>
          cases oo2 with
          | none => rw [hg] at h; simp at h
          | some o =>
            rw [hg] at h
            simp only [Option.some.injEq, Prod.mk.injEq] at h
            rw [← h.2]
            exact offerWriteCount_ge_one cfg st db o finalRublePrice

/-- Witness for C1: a concrete write that occurred (price rounded to `0`)
wrote quantity `1`. -/
theorem offerUpdater_written_quantity_ge_one_witness :
    (updateTradeOfferPrice cfgBase stEmpty dbEmpty offersRubleOnly 0).1 = some (0, 1) ∧
    (1 : ℤ) ≤ 1 :=
  ⟨by decide,
   offerUpdater_written_quantity_ge_one cfgBase stEmpty dbEmpty offersRubleOnly 0 0 1
     (by decide)⟩

/-- Claim C3: with retention mode (`stickToBaseline`) enabled and a non-empty
baseline map, calling the Baseline Builder is a no-op: the whole engine state
— in particular the baseline map, entry for entry — is unchanged, whatever
the store's current tables or offer quantities are. -/
theorem baselineBuilder_noop_under_retention (cfg : Config) (st : EngineState)
    (db : Database) (targetTraderIds : List String)
    (hstick : cfg.stickToBaseline = true) (hne : st.baselinePriceMap ≠ []) :
    buildBaselinePricesFromTraders cfg st db targetTraderIds false = st := by
  unfold buildBaselinePricesFromTraders
  have hlen : 0 < st.baselinePriceMap.length := List.length_pos.mpr hne
  simp [hstick, hlen]

/-- Witness for C3: a concrete frozen baseline survives a rebuild request. -/
theorem baselineBuilder_noop_under_retention_witness :
    cfgBase.stickToBaseline = true ∧ stBase.baselinePriceMap ≠ [] ∧
    buildBaselinePricesFromTraders cfgBase stBase dbEmpty ["t"] false = stBase :=
  ⟨rfl, by decide,
   baselineBuilder_noop_under_retention cfgBase stBase dbEmpty ["t"] rfl (by decide)⟩

/-- Claim C4: for every 32-bit seed, the two generator constructors
(`seededRandom`, `createDeterministicRandomGenerator`) freshly built from
that seed produce identical values at every position `i ≤ n` of their output
streams, and each advances its internal state by exactly one step per call,
the output being a pure function of the state. -/
theorem generator_deterministic (seed n i : Nat) (h : i ≤ n) :
    seededRandomValueAt seed i = cdrgValueAt seed i ∧
    seededRandomStateAt seed (i + 1) = (seededRandomStep (seededRandomStateAt seed i)).1 ∧
    cdrgStateAt seed (i + 1) =
      (createDeterministicRandomGeneratorStep (cdrgStateAt seed i)).1 := by
  refine ⟨?_, rfl, rfl⟩
  unfold seededRandomValueAt cdrgValueAt
  rw [seededRandomStateAt_eq_cdrgStateAt, seededRandomStep_eq_cdrgStep]

/-- Witness for C4 at seed `123`, position `2 ≤ 3`. -/
theorem generator_deterministic_witness :
    2 ≤ 3 ∧
    (seededRandomValueAt 123 2 = cdrgValueAt 123 2 ∧
     seededRandomStateAt 123 3 = (seededRandomStep (seededRandomStateAt 123 2)).1 ∧
     cdrgStateAt 123 3 = (createDeterministicRandomGeneratorStep (cdrgStateAt 123 2)).1) :=
  ⟨by decide, generator_deterministic 123 3 2 (by decide)⟩

/-- Claim C5: for every generator output `r ∈ [0,1)` and every configuration with
`minMultiplier ≤ maxMultiplier`, the multiplier
`r * (maxMultiplier − minMultiplier) + minMultiplier` computed by the Price
Randomizer lies between the two bounds. -/
theorem multiplier_within_bounds (cfg : Config) (r : ℚ)
    (h0 : 0 ≤ r) (h1 : r < 1)
    (h2 : cfg.minMultiplier ≤ cfg.maxMultiplier) :
    cfg.minMultiplier ≤ computedMultiplier cfg r ∧
    computedMultiplier cfg r ≤ cfg.maxMultiplier := by
  unfold computedMultiplier
  constructor <;> nlinarith

/-- Witness for C5 at the default bounds and `r = 1/2`. -/
theorem multiplier_within_bounds_witness :
    ((0:ℚ) ≤ 1/2 ∧ (1/2:ℚ) < 1 ∧ cfgBase.minMultiplier ≤ cfgBase.maxMultiplier) ∧
    cfgBase.minMultiplier ≤ computedMultiplier cfgBase (1/2) ∧
    computedMultiplier cfgBase (1/2) ≤ cfgBase.maxMultiplier :=
  ⟨⟨by norm_num, by norm_num, by norm_num [cfgBase]⟩,
   multiplier_within_bounds cfgBase (1/2) (by norm_num) (by norm_num)
     (by norm_num [cfgBase])⟩

/-- Counterexample to C6 as stated: the loader's validation accepts the
multiplier bounds `(-1, -1)` unchanged (they are finite, ordered and the
absolute bounds are `0`), yet the Price Randomizer then maps the strictly
positive baseline `100` with generator output `1/2 ∈ [0,1)` to `-100 < 0`. -/
theorem randomizer_negative_output_cex :
    loaderNormalizeBounds (-1) (-1) 0 0 = (-1, -1, 0, 0) ∧
    cfgNegMult.minMultiplier = -1 ∧ cfgNegMult.maxMultiplier = -1 ∧
    cfgNegMult.minAbsolute = 0 ∧ cfgNegMult.maxAbsolute = 0 ∧
    ((0:ℚ) ≤ 1/2 ∧ (1/2:ℚ) < 1) ∧ (0:ℚ) < 100 ∧
    calculateRandomizedPriceWith cfgNegMult (1/2) 100 = -100 ∧
    (-100 : ℤ) < 0 := by
  refine ⟨?_, rfl, rfl, rfl, rfl, ⟨by norm_num, by norm_num⟩, by norm_num, ?_, by norm_num⟩
  · norm_num [loaderNormalizeBounds]
  · norm_num [calculateRandomizedPriceWith, computedMultiplier, roundValueByMode,
      cfgNegMult, cfgBase]

/-- Claim C6 amended: for every strictly positive baseline, generator output
`r ≥ 0` and loader-validated configuration whose `minMultiplier` is in
addition non-negative, the Price Randomizer's output is never negative. -/
theorem randomizer_output_nonneg (cfg : Config) (r baselinePrice : ℚ)
    (hb : 0 < baselinePrice) (hr : 0 ≤ r)
    (hmin : 0 ≤ cfg.minMultiplier)
    (hmm : cfg.minMultiplier ≤ cfg.maxMultiplier) :
    0 ≤ calculateRandomizedPriceWith cfg r baselinePrice := by
  have hm : 0 ≤ computedMultiplier cfg r := by
    unfold computedMultiplier; nlinarith
  have h0 : 0 ≤ baselinePrice * computedMultiplier cfg r := mul_nonneg hb.le hm
  unfold calculateRandomizedPriceWith
  apply roundValueByMode_nonneg
  split
  · rename_i hmax
    refine le_min ?_ hmax.le
    split
    · exact le_trans h0 (le_max_left _ _)
    · exact h0
  · split
    · exact le_trans h0 (le_max_left _ _)
    · exact h0

/-- Witness for the amended C6 at the default configuration. -/
theorem randomizer_output_nonneg_witness :
    ((0:ℚ) < 100 ∧ (0:ℚ) ≤ 1/2 ∧ (0:ℚ) ≤ cfgBase.minMultiplier ∧
      cfgBase.minMultiplier ≤ cfgBase.maxMultiplier) ∧
    0 ≤ calculateRandomizedPriceWith cfgBase (1/2) 100 :=
  ⟨⟨by norm_num, by norm_num, by norm_num [cfgBase], by norm_num [cfgBase]⟩,
   randomizer_output_nonneg cfgBase (1/2) 100 (by norm_num) (by norm_num)
     (by norm_num [cfgBase]) (by norm_num [cfgBase])⟩

/-- Claim C9: one cycle's trader loop handles every identifier of the active set in
set order — a missing vendor yields a warning log entry and the loop goes on,
an exception from one vendor's processing yields an error log entry and the
loop goes on — and the loop itself always returns (never throws): the trace
has exactly one entry per identifier, in order. -/
theorem cycle_processes_every_trader {σ : Type}
    (process : σ → Trader → σ × Option String)
    (traders : List (String × Trader)) (s : σ) (ids : List String) :
    ((runTraderLoop process traders s ids).2.map cycleLogId = ids) ∧
    (∀ id rest, lookupAssoc traders id = none →
      runTraderLoop process traders s (id :: rest) =
        ((runTraderLoop process traders s rest).1,
         CycleLog.warnMissing id :: (runTraderLoop process traders s rest).2)) ∧
    (∀ id tr msg rest, lookupAssoc traders id = some tr →
      (process s tr).2 = some msg →
      runTraderLoop process traders s (id :: rest) =
        ((runTraderLoop process traders (process s tr).1 rest).1,
         CycleLog.errorProcessing id msg ::
           (runTraderLoop process traders (process s tr).1 rest).2)) := by
  refine ⟨?_, ?_, ?_⟩
  · induction ids generalizing s with
    | nil => simp [runTraderLoop]
    | cons id rest ih =>
      unfold runTraderLoop
      cases hl : lookupAssoc traders id with
      | none => simp [cycleLogId, ih]
      | some tr =>
        cases he : (process s tr).2 <;> simp [he, cycleLogId, ih]
  · intro id rest hmiss
    conv_lhs => rw [runTraderLoop]
    simp only [hmiss]
  · intro id tr msg rest hfound herr
    conv_lhs => rw [runTraderLoop]
    simp only [hfound, herr]

/-- Witness for C9: a concrete loop over one identifier absent from the store
logs a warning and completes. -/
theorem cycle_processes_every_trader_witness :
    runTraderLoop (fun (s : Nat) (_ : Trader) => (s, none)) [] 0 ["missing"] =
      ((runTraderLoop (fun (s : Nat) (_ : Trader) => (s, none)) [] 0 []).1,
       CycleLog.warnMissing "missing" ::
         (runTraderLoop (fun (s : Nat) (_ : Trader) => (s, none)) [] 0 []).2) :=
  (cycle_processes_every_trader (fun (s : Nat) (_ : Trader) => (s, none)) [] 0 []).2.1
    "missing" [] (by decide)

/-- Counterexample to C2 as stated: with cash-only mode set and a
trade-offer list holding a dollar offer before the base-currency (ruble)
offer, the Offer Updater writes into the dollar offer at index `0`, not into
the ruble offer at index `1` — there is no base-currency preference, the
target depends on list order. -/
theorem cashOnly_prefers_base_currency_cex :
    cfgBase.onlyCashTrades = true ∧
    rubleOf cfgBase = some "RUB" ∧
    offersDollarFirst.get? 1 = some (some { tpl := some "RUB", count := 7 }) ∧
    (updateTradeOfferPrice cfgBase stEmpty dbEmpty offersDollarFirst 100).1 =
      some (0, 100) ∧
    offersDollarFirst.get? 0 = some (some { tpl := some "USD", count := 5 }) ∧
    ("USD" : String) ≠ "RUB" := by
  refine ⟨rfl, by decide, by decide, by decide, by decide, by decide⟩

/-- Claim C2 amended: with cash-only mode set, whenever the Offer Updater writes,
its target is the first offer in list order whose counterpart identifier is
any configured currency identifier; the base currency is selected only when
no other currency offer precedes it. -/
theorem cashOnly_targets_first_currency_offer (cfg : Config) (st : EngineState)
    (db : Database) (offers : List (Option Offer)) (finalRublePrice : ℤ)
    (i : Nat) (v : ℤ) (hcash : cfg.onlyCashTrades = true)
    (h : (updateTradeOfferPrice cfg st db offers finalRublePrice).1 = some (i, v)) :
    ∃ o, offers.get? i = some o ∧ isCurrencyOfferB cfg o = true ∧
      ∀ j, j < i → ∀ o', offers.get? j = some o' → isCurrencyOfferB cfg o' = false := by
  unfold updateTradeOfferPrice at h
  simp only [hcash, if_true] at h
  cases hf : findCurrencyOfferIdx cfg offers with
  | none => rw [hf] at h; simp at h
  | some i' =>
    rw [hf] at h
    simp only at h
    have hi : i' = i := by
      cases hg : offers.get? i' with
      | none => rw [hg] at h; simp at h
      | some oo =>
        cases oo with
        | none => rw [hg] at h; simp at h
        | some o =>
          rw [hg] at h
          simp only [Option.some.injEq, Prod.mk.injEq] at h
          exact h.1
    rw [hi] at hf
    exact findCurrencyOfferIdx_spec cfg offers i hf

/-- Witness for the amended C2 at the dollar-before-ruble list. -/
theorem cashOnly_targets_first_currency_offer_witness :
    cfgBase.onlyCashTrades = true ∧
    (∃ o, offersDollarFirst.get? 0 = some o ∧ isCurrencyOfferB cfgBase o = true ∧
      ∀ j, j < 0 → ∀ o', offersDollarFirst.get? j = some o' →
        isCurrencyOfferB cfgBase o' = false) :=
  ⟨rfl,
   cashOnly_targets_first_currency_offer cfgBase stEmpty dbEmpty offersDollarFirst 100
     0 100 rfl (by decide)⟩

/-- Counterexample to C7 as stated: a map-shaped prices table whose entry
holds the numeric string `"-5"` makes the Reference Price Resolver return
`-5` — a non-positive value, not absent — because the string-conversion
branch has no positivity check. -/
theorem resolver_negative_string_cex :
    resolvePriceFromTables dbStrNeg "x" = some (-5) ∧ ¬ (0 < (-5 : ℚ)) := by
  constructor
  · decide
  · norm_num

/-- Claim C7 amended: for every item identifier and every shape of the tables
whose price fields hold numbers (or are missing), the Reference Price
Resolver returns either a strictly positive numeric price or absent, and any
non-positive or non-numeric number yields absent; a numeric *string* in a
map-shaped table is instead returned after conversion with no positivity
check. -/
theorem resolver_positive_or_absent (db : Database) (tid : String)
    (h : dbTablesNumeric db = true) :
    resolvePriceFromTables db tid = none ∨
      ∃ q, resolvePriceFromTables db tid = some q ∧ 0 < q := by
  have hp := priceFromPricesTable_posOrAbsent db tid h
  have hh := priceFromHandbook_posOrAbsent db tid h
  unfold resolvePriceFromTables
  rcases hp with hp | ⟨q, hq, hqpos⟩
  · rcases hh with hh | ⟨q2, hq2, hq2pos⟩
    · left
      simp [hp, hh, jsFalsyQ]
    · right
      exact ⟨q2, by simp [hp, hq2, jsFalsyQ], hq2pos⟩
  · right
    refine ⟨q, ?_, hqpos⟩
    have hfalse : jsFalsyQ (some q) = false := by
      simp only [jsFalsyQ, beq_eq_false_iff_ne]
      exact ne_of_gt hqpos
    simp [hq, hfalse]

/-- Witness for the amended C7 on a numbers-only table. -/
theorem resolver_positive_or_absent_witness :
    resolvePriceFromTables dbNumeric "x" = none ∨
      ∃ q, resolvePriceFromTables dbNumeric "x" = some q ∧ 0 < q :=
  resolver_positive_or_absent dbNumeric "x" (by decide)

/-- Claim C8: after one call of the Reference Price Resolver for an identifier,
a later call with the same identifier — against any (possibly changed)
tables — returns exactly the first call's result, reads no table (the read
flag is `false`), and leaves the state unchanged; this includes a memoized
absent result. -/
theorem resolver_memoized (st : EngineState) (db db' : Database) (tid : String) :
    lookupTemplatePriceFromDatabase
        (lookupTemplatePriceFromDatabase st db tid).2.1 db' tid =
      ((lookupTemplatePriceFromDatabase st db tid).1,
       (lookupTemplatePriceFromDatabase st db tid).2.1, false) := by
  unfold lookupTemplatePriceFromDatabase
  cases hc : lookupAssoc st.templatePriceCache tid with
  | some cached => simp [hc]
  | none =>
    simp only [hc]
    have hafter :
        lookupAssoc (st.templatePriceCache ++ [(tid, resolvePriceFromTables db tid)]) tid =
          some (resolvePriceFromTables db tid) :=
      lookupAssoc_append_self st.templatePriceCache tid _ hc
    simp [hafter]

/-- Counterexample to C10 as stated: a trader whose single assortment item
has a template with a strictly positive baseline price (`100`) but no offer
identifier (`_id` missing).  The spec-side count of baseline-carrying items
is `1`, yet the generator state is left unchanged — and one step would have
changed it — so the per-item draw is conditioned on the identifiers too, not
only on the baseline. -/
theorem generator_steps_per_baseline_item_cex :
    specCountBaselineItems stBase traderMissingOfferId = 1 ∧
    (randomizeTraderPrices cfgBase stBase dbEmpty traderMissingOfferId).2.rngState =
      stBase.rngState ∧
    rngAdvance stBase.rngState ≠ stBase.rngState := by
  refine ⟨by decide, by decide, by decide⟩

/-- Claim C10 amended: when processing one vendor's assortment, exactly one
generator step is consumed for every assortment item that has both its item
and offer identifiers present (non-empty) and a strictly positive baseline
price — including items with no barter-scheme entry and items whose offer
update reports no write — and no step for any other item; hence the
generator state after a vendor depends only on how many of its items pass
that test, not on which offers were written. -/
theorem generator_steps_count_eligible (cfg : Config) (st : EngineState)
    (db : Database) (tr : Trader) :
    (randomizeTraderPrices cfg st db tr).2.rngState =
      rngAdvance^[countEligibleItems st tr] st.rngState := by
  unfold randomizeTraderPrices
  cases ha : tr.assort with
  | none =>
    show st.rngState = _
    unfold countEligibleItems
    rw [ha]
    rfl
  | some assort =>
    obtain ⟨tc, cc, hl⟩ := randomizeItemsLoop_state cfg db
      (assort.barterScheme.getD []) (assort.items.getD []) 0 st
    rw [hl, cacheRngUpdate_rngState]
    unfold countEligibleItems
    rw [ha]
    rfl
